import Mathlib

/-!
Verification development for the CBPSim speculative TAGE-class branch
predictors.

The main embedding (`namespace P3`) follows the predictor of
`src/unnamed/part_003` (class `SampleCondPredictor` with RL-weighted table
ordering and the `pred_cycle` delta rollback).  A second, smaller embedding
(`namespace TG`) follows `src/stash/my_cond_branch_predictor_tage_good.h`,
whose `predict` scans the tagged tables from the longest history length to
the shortest.

Modelling conventions:
- machine integers are `Nat`/`Int` with explicit `% 2 ^ w` or explicit
  saturation, mirroring the C++ expressions (`uint8_t pred_cycle` arithmetic
  is taken mod 256; `int8_t` counters are updated through the very same
  `min`/`max` expressions the source uses);
- `std::deque<bool> ghr` is a `List Bool` whose head is the deque front
  (oldest bit); `push_back` appends at the end, `pop_front` drops the head;
- fixed-size `std::vector` tables are total functions from the index,
  always accessed modulo the table size exactly as the source does;
- `std::map<uint64_t, SpeculativeState>` is a function
  `Nat → Option SpeculativeState`; `operator[]` on a missing key
  value-initializes the mapped struct, which zero-initializes every scalar
  member, giving `mapDefault` below;
- `SpeculativeState.pred_cycle` is an `Option Nat`: `predict` constructs the
  struct without ever assigning this member (only `history_update` assigns
  it), so a checkpoint created by `predict` alone carries an indeterminate
  `uint8_t`; we model the indeterminate value as `none`, and `update`, which
  reads the member unconditionally, returns `none` (undefined behaviour) in
  that case.  `update` likewise returns `none` when the GHR write
  `ghr[ghr.size() - delta - 1]` or a hash iterator `rbegin() + skip` would
  leave the container's bounds; every other path is defined and total.
-/

namespace CBPSim

/-- Per-table configuration: history length, log2(number of entries), tag
width.  `struct TableConfig` in the source. -/
structure TableConfig where
  hist_len : Nat
  index_bits : Nat
  tag_bits : Nat
deriving DecidableEq, Repr

/-- The table bank configuration `TAGGED_CONFIGS` (identical in
`src/unnamed/part_003` and the tage_good variant). -/
def TAGGED_CONFIGS : List TableConfig :=
  [⟨4, 10, 7⟩, ⟨6, 10, 7⟩, ⟨10, 11, 8⟩, ⟨16, 11, 8⟩, ⟨25, 11, 9⟩,
   ⟨40, 11, 10⟩, ⟨64, 10, 11⟩, ⟨101, 10, 12⟩, ⟨160, 10, 12⟩, ⟨254, 9, 13⟩,
   ⟨403, 9, 14⟩, ⟨640, 9, 15⟩]

/-- Configuration of table `i` (only `i < 12` is ever used). -/
def cfgAt (i : Nat) : TableConfig := TAGGED_CONFIGS.getD i ⟨0, 0, 0⟩

/-- One entry of a tagged table: `struct TaggedEntry { uint16_t tag; int8_t
ctr; uint8_t u; }`. -/
structure TaggedEntry where
  tag : Nat
  ctr : Int
  u : Nat
deriving DecidableEq, Repr

/-- Inner loop of `compute_hash`: `hash ^= (*it << (bits_used % out_bits))`,
walking the already-prepared bit list with `bits_used` starting at `i`. -/
def hashFoldAux (outBits : Nat) : Nat → Nat → List Bool → Nat
  | h, _, [] => h
  | h, i, b :: rest =>
      hashFoldAux outBits (h ^^^ ((if b then 1 else 0) <<< (i % outBits))) (i + 1) rest

/-- `compute_hash(pc, hist, hist_len, skip_hist, out_bits)` of
`src/unnamed/part_003`: iterate from `hist.rbegin() + skip_hist` (most
recent bit first, skipping `skip_hist` bits) for at most `hist_len` bits,
then mask to `out_bits` bits. -/
def compute_hash (pc : Nat) (hist : List Bool) (histLen skipHist outBits : Nat) : Nat :=
  hashFoldAux outBits pc 0 ((hist.reverse.drop skipHist).take histLen) &&& (2 ^ outBits - 1)

namespace P3

/-- `struct SpeculativeState` of `src/unnamed/part_003`.  `provider_table`
is the C++ `int` with `-1` meaning "no tagged table"; we write `-1` as
`none` and table `i` as `some i`.  `pred_cycle = none` models the member
being left uninitialized by `predict` (only `history_update` assigns it). -/
structure SpeculativeState where
  provider_table : Option Nat
  altpred : Bool
  final_pred : Bool
  pred_cycle : Option Nat
  prediction : List Int
deriving DecidableEq, Repr

/-- The checkpoint produced by `std::map::operator[]` on a missing key:
value-initialization zero-initializes every scalar member (`provider_table
= 0`, i.e. table 0, and `pred_cycle = 0`) and leaves the vector empty. -/
def mapDefault : SpeculativeState :=
  { provider_table := some 0, altpred := false, final_pred := false,
    pred_cycle := some 0, prediction := [] }

/-- Full mutable state of the `part_003` `SampleCondPredictor`. -/
structure PState where
  pred_cycle : Nat
  base_table : Nat → Int
  weights : Nat → Nat → Int
  tagged : Nat → Nat → TaggedEntry
  ghr : List Bool
  use_alt_on_na : Nat
  reset_counter : Nat
  spec_states : Nat → Option SpeculativeState

/-- The constructed (cold) predictor: all counters and weights 0, tags 0,
`use_alt_on_na = USE_ALT_THRESHOLD = 8`, empty GHR, no checkpoints. -/
def cold : PState :=
  { pred_cycle := 0
    base_table := fun _ => 0
    weights := fun _ _ => 0
    tagged := fun _ _ => ⟨0, 0, 0⟩
    ghr := []
    use_alt_on_na := 8
    reset_counter := 0
    spec_states := fun _ => none }

/-- `get_unique_inst_id(seq_no, piece) = (seq_no << 4) | (piece & 0xF)`. -/
def get_unique_inst_id (seqNo piece : Nat) : Nat :=
  (seqNo <<< 4) ||| (piece &&& 15)

/-- The RL score of table `i` computed by `predict`:
`Σ_{j < min(640, ghr.size())} (ghr[j] ? w[i][j] : -w[i][j]) + w[i][640]`
(the last weight is the bias). -/
def scoreOf (st : PState) (i : Nat) : Int :=
  ((List.range (min 640 st.ghr.length)).foldl
      (fun acc j => acc + (if st.ghr.getD j false then st.weights i j else -st.weights i j))
      0)
    + st.weights i 640

/-- Stable descending insertion: keep `y` in front of `x` exactly when
`score y > score x`, so equal scores keep their original order.  This is
the order produced by `get_sorted_indices` (libstdc++'s `std::sort` runs a
stable insertion sort on ranges of at most 16 elements, and the comparator
is `arr[a] > arr[b]`). -/
def insertDesc (score : Nat → Int) (x : Nat) : List Nat → List Nat
  | [] => [x]
  | y :: ys => if score x < score y then y :: insertDesc score x ys else x :: y :: ys

/-- `get_sorted_indices`: table indices sorted by descending RL score,
ties in ascending index order. -/
def get_sorted_indices (score : Nat → Int) (l : List Nat) : List Nat :=
  l.foldr (insertDesc score) []

/-- The table index `predict` computes for table `i`:
`compute_hash(PC, ghr, hist_len, 0, index_bits) % table.size()`. -/
def predIdx (st : PState) (pc i : Nat) : Nat :=
  compute_hash pc st.ghr (cfgAt i).hist_len 0 (cfgAt i).index_bits % 2 ^ (cfgAt i).index_bits

/-- The tag `predict` computes for table `i`. -/
def predTag (st : PState) (pc i : Nat) : Nat :=
  compute_hash pc st.ghr (cfgAt i).hist_len 0 (cfgAt i).tag_bits

/-- The scan loop of `predict` over the score-ordered table list: the first
tag match becomes the provider, the next tag match supplies the alternate
bit and breaks out of the loop.  Returns (provider, overwritten alternate
bit if any). -/
def scanLoop (st : PState) (pc : Nat) : List Nat → Option Nat → Option Nat × Option Bool
  | [], prov => (prov, none)
  | i :: rest, prov =>
      match prov with
      | none =>
          if (st.tagged i (predIdx st pc i)).tag = predTag st pc i then
            scanLoop st pc rest (some i)
          else
            scanLoop st pc rest none
      | some p =>
          if (st.tagged i (predIdx st pc i)).tag = predTag st pc i then
            (some p, some (decide (0 ≤ (st.tagged i (predIdx st pc i)).ctr)))
          else
            scanLoop st pc rest (some p)

/-- Provider and (overwritten) alternate of `predict`, scanning in the
RL-score order. -/
def providerAlt (st : PState) (pc : Nat) : Option Nat × Option Bool :=
  scanLoop st pc (get_sorted_indices (scoreOf st) (List.range 12)) none

/-- The base predictor output `base_table[PC % base_table.size()] >= 0`. -/
def basePred (st : PState) (pc : Nat) : Bool :=
  decide (0 ≤ st.base_table (pc % 2 ^ 14))

/-- `predict(seq_no, piece, PC, tage_pred)` of `src/unnamed/part_003`
(identity already combined into `id`): returns the predicted bit and the
state with the new checkpoint stored.  Note that the source never assigns
`state.pred_cycle` here, hence `pred_cycle := none`. -/
def predict (st : PState) (id pc : Nat) : Bool × PState :=
  let bp := basePred st pc
  let pa := providerAlt st pc
  let alt := pa.2.getD bp
  let final :=
    match pa.1 with
    | some p =>
        if (st.tagged p (predIdx st pc p)).ctr.natAbs ≤ 1 ∧ 8 ≤ st.use_alt_on_na then alt
        else decide (0 ≤ (st.tagged p (predIdx st pc p)).ctr)
    | none => bp
  let cp : SpeculativeState :=
    { provider_table := pa.1, altpred := alt, final_pred := final,
      pred_cycle := none, prediction := (List.range 12).map (scoreOf st) }
  (final, { st with spec_states := fun n => if n = id then some cp else st.spec_states n })

/-- `history_update`: `pred_cycle += 1` (uint8), push the speculative bit,
pop the front above `MAX_HISTORY + MAX_HISTORY_BUFFER = 672` bits, and
record the new cycle in the checkpoint for `id`
(`speculative_states[id]` creates the zeroed default when missing). -/
def history_update (st : PState) (id : Nat) (taken : Bool) : PState :=
  let pcyc := (st.pred_cycle + 1) % 256
  let g0 := st.ghr ++ [taken]
  let g := if 672 < g0.length then g0.tail else g0
  let cp := { (st.spec_states id).getD mapDefault with pred_cycle := some pcyc }
  { st with pred_cycle := pcyc, ghr := g,
            spec_states := fun n => if n = id then some cp else st.spec_states n }

/-- `delta_cycles = pred_cycle - state.pred_cycle` as computed on
`uint8_t`: subtraction mod 256. -/
def deltaCycles (now c : Nat) : Nat := (now + 256 - c) % 256

/-- Index used by `update` for table `i`: the same hash with the
`delta_cycles` skip applied. -/
def updIdx (pc : Nat) (g : List Bool) (delta i : Nat) : Nat :=
  compute_hash pc g (cfgAt i).hist_len delta (cfgAt i).index_bits % 2 ^ (cfgAt i).index_bits

/-- Tag used by `update` for table `i` (with the `delta_cycles` skip). -/
def updTag (pc : Nat) (g : List Bool) (delta i : Nat) : Nat :=
  compute_hash pc g (cfgAt i).hist_len delta (cfgAt i).tag_bits

/-- Overwrite one slot of one tagged table. -/
def setTagged (t : Nat → Nat → TaggedEntry) (i idx : Nat) (e : TaggedEntry) :
    Nat → Nat → TaggedEntry :=
  fun a b => if a = i ∧ b = idx then e else t a b

/-- The allocation scan of `update`: first table `k` in the given (ascending)
list whose entry at the update index has usefulness 0. -/
def firstFree (t : Nat → Nat → TaggedEntry) (pc : Nat) (g : List Bool) (delta : Nat) :
    List Nat → Option Nat
  | [] => none
  | k :: rest =>
      if (t k (updIdx pc g delta k)).u = 0 then some k
      else firstFree t pc g delta rest

/-- Wrap to `int8_t` (the C++ cast applied before clamping a weight). -/
def toInt8 (x : Int) : Int := (x + 128) % 256 - 128

/-- `std::max(std::min((int8_t)(w + upd), WEIGHT_MAX), WEIGHT_MIN)` with
`WEIGHT_MAX = 7`, `WEIGHT_MIN = -8` (4-bit RL weights). -/
def clampW (x : Int) : Int := max (min (toInt8 x) 7) (-8)

/-- The RL-weight update of `update` on a misprediction (`LEARNING_RATE =
1`, `target = (i == k)` with `k` the allocation loop variable, equal to 12
when no table was allocated): row-by-row clamped additive update against
the rolled-back history, bias (index 640) last. -/
def updWeights (w : Nat → Nat → Int) (g : List Bool) (delta kVal : Nat) :
    Nat → Nat → Int :=
  fun i j =>
    if i < 12 then
      if j < min 640 g.length then
        clampW (w i j +
          (if g.getD (g.length - delta - j - 1) false then 1 else -1) *
            (if i = kVal then 1 else 0))
      else if j = 640 then
        clampW (w i j + (if i = kVal then 1 else 0))
      else w i j
    else w i j

/-- The new value of the provider's entry in `update`: the saturating
counter step toward `resolveDir`, then the usefulness step when the
provider's call was decisive (`altpred != predDir`). -/
def entryAfter (e : TaggedEntry) (alt resolveDir predDir : Bool) : TaggedEntry :=
  let e1 :=
    if resolveDir then { e with ctr := min (e.ctr + 1) 3 }
    else { e with ctr := max (e.ctr - 1) (-4) }
  if alt ≠ predDir then
    if resolveDir = predDir then { e1 with u := min (e1.u + 1) 3 }
    else { e1 with u := e1.u - 1 }
  else e1

/-- The tagged tables after the provider-counter write and the allocation
scan of `update` (before the periodic usefulness halving). -/
def taggedAfter (st : PState) (cp : SpeculativeState) (pc delta : Nat) (g1 : List Bool)
    (resolveDir predDir : Bool) : Nat → Nat → TaggedEntry :=
  match cp.provider_table with
  | some p =>
      let idx := updIdx pc g1 delta p
      let t1 := setTagged st.tagged p idx (entryAfter (st.tagged p idx) cp.altpred resolveDir predDir)
      if resolveDir ≠ predDir then
        match firstFree t1 pc g1 delta (List.range' (p + 1) (11 - p)) with
        | some k =>
            setTagged t1 k (updIdx pc g1 delta k)
              ⟨updTag pc g1 delta k, if resolveDir then 0 else -1, 0⟩
        | none => t1
      else t1
  | none => st.tagged

/-- The RL weights after `update`: trained only on a misprediction with a
tagged provider and enough history (`ghr.size() >= delta + MAX_HISTORY +
1`), toward the allocation loop's final index `k` (12 when no table was
allocated). -/
def weightsAfter (st : PState) (cp : SpeculativeState) (pc delta : Nat) (g1 : List Bool)
    (resolveDir predDir : Bool) : Nat → Nat → Int :=
  match cp.provider_table with
  | some p =>
      let idx := updIdx pc g1 delta p
      let t1 := setTagged st.tagged p idx (entryAfter (st.tagged p idx) cp.altpred resolveDir predDir)
      if resolveDir ≠ predDir then
        if delta + 641 ≤ g1.length then
          updWeights st.weights g1 delta
            ((firstFree t1 pc g1 delta (List.range' (p + 1) (11 - p))).getD 12)
        else st.weights
      else st.weights
  | none => st.weights

/-- The base table after `update`: stepped toward `resolveDir` only when no
tagged table provided the prediction. -/
def baseAfter (st : PState) (cp : SpeculativeState) (pc : Nat) (resolveDir : Bool) :
    Nat → Int :=
  match cp.provider_table with
  | some _ => st.base_table
  | none =>
      let bidx := pc % 2 ^ 14
      let b := st.base_table bidx
      let nb := if resolveDir then min (b + 1) 1 else max (b - 1) (-2)
      fun n => if n = bidx then nb else st.base_table n

/-- `use_alt_on_na` after `update`. -/
def uaAfter (st : PState) (cp : SpeculativeState) (resolveDir predDir : Bool) : Nat :=
  match cp.provider_table with
  | some _ =>
      if cp.altpred = resolveDir ∧ predDir ≠ resolveDir then min (st.use_alt_on_na + 1) 15
      else if cp.altpred ≠ resolveDir ∧ predDir = resolveDir then st.use_alt_on_na - 1
      else st.use_alt_on_na
  | none => st.use_alt_on_na

/-- `update(seq_no, piece, PC, resolveDir, predDir, nextPC)` of
`src/unnamed/part_003`.  Returns `none` exactly when the source's behaviour
is undefined: the checkpoint's `pred_cycle` member was never initialized
(`predict` without any `history_update`), or the GHR rollback write /
the hash skip `rbegin() + delta` would leave the container's bounds. -/
def update (st : PState) (id pc : Nat) (resolveDir predDir : Bool) : Option PState :=
  let cp := (st.spec_states id).getD mapDefault
  match cp.pred_cycle with
  | none => none
  | some c =>
      let delta := deltaCycles st.pred_cycle c
      let ub : Bool :=
        if resolveDir ≠ predDir then decide (st.ghr.length < delta + 1)
        else
          match cp.provider_table with
          | some _ => decide (st.ghr.length < delta)
          | none => false
      if ub then none
      else
        let g1 :=
          if resolveDir ≠ predDir then st.ghr.set (st.ghr.length - delta - 1) resolveDir
          else st.ghr
        let t := taggedAfter st cp pc delta g1 resolveDir predDir
        let doReset := 524288 ≤ st.reset_counter + 1
        some
          { pred_cycle := st.pred_cycle
            base_table := baseAfter st cp pc resolveDir
            weights := weightsAfter st cp pc delta g1 resolveDir predDir
            tagged :=
              if doReset then fun i idx => { t i idx with u := (t i idx).u / 2 } else t
            ghr := g1
            use_alt_on_na := uaAfter st cp resolveDir predDir
            reset_counter := if doReset then 0 else st.reset_counter + 1
            spec_states := fun n => if n = id then none else st.spec_states n }

/-- One call of the external interface, with the identity still split as
(seqNo, piece) the way the harness passes it. -/
inductive Op where
  | predictOp (seqNo piece pc : Nat)
  | historyOp (seqNo piece : Nat) (taken : Bool)
  | updateOp (seqNo piece pc : Nat) (resolveDir predDir : Bool)
deriving DecidableEq, Repr

/-- Apply one harness call to the state (a call whose behaviour the source
leaves undefined leaves the state unchanged — no defined mutation exists
for it). -/
def stepOp (st : PState) : Op → PState
  | .predictOp s p pc => (predict st (get_unique_inst_id s p) pc).2
  | .historyOp s p t => history_update st (get_unique_inst_id s p) t
  | .updateOp s p pc r d => (update st (get_unique_inst_id s p) pc r d).getD st

/-- Run a sequence of harness calls from the cold predictor. -/
def run (ops : List Op) : PState := ops.foldl stepOp cold

/-- A burst of `history_update` calls, each given as (identity, taken). -/
def pushMany (st : PState) (ps : List (Nat × Bool)) : PState :=
  ps.foldl (fun s pb => history_update s pb.1 pb.2) st

/-- The memory estimate of `check_memory_budget` in bits, parameterized by
the tagged-table configuration the loop walks: GHR (`MAX_HISTORY +
MAX_HISTORY_BUFFER = 672` bits), base predictor (`2^14` entries of
`BASE_PRED_BITS = 2` bits), RL weights (`RL_WEIGHTS_BITS * (MAX_HISTORY +
1) * NUM_TAGGED_TABLES = 4 * 641 * 12` bits), then per table `entries *
(tag_bits + TAGE_PRED_BITS + TAGE_USEFUL_BITS)`. -/
def memBudgetBits (cfgs : List TableConfig) : Nat :=
  cfgs.foldl (fun acc cfg => acc + 2 ^ cfg.index_bits * (cfg.tag_bits + 3 + 2))
    (672 + 2 ^ 14 * 2 + 4 * 641 * 12)

/-- The bits-to-bytes conversion of `check_memory_budget`:
`size = (size >> 3) + (size & 7 > 0 ? 1 : 0)`.  By C++ precedence
`size & 7 > 0` parses as `size & (7 > 0)`, i.e. `size & 1`. -/
def memBudgetBytes (cfgs : List TableConfig) : Nat :=
  (memBudgetBits cfgs >>> 3) + (memBudgetBits cfgs &&& 1)

/-- Whether `check_memory_budget`'s assertion `size <= MAX_BYTES` holds
(`MAX_BYTES = 192 * 1024`); `setup()` aborts exactly when it does not. -/
def check_memory_budget (cfgs : List TableConfig) : Bool :=
  decide (memBudgetBytes cfgs ≤ 192 * 1024)

/-- Whether `setup()` passes on the configured predictor. -/
def setup_ok : Bool := check_memory_budget TAGGED_CONFIGS

/-- Follows the specification's words, for comparison with
`check_memory_budget` (refinement side of claim C8): "sum the bit cost of
GHR, base table, and every tagged table (entries × (tag + counter +
usefulness widths))" — no RL-weight term. -/
def specTotalBits (cfgs : List TableConfig) : Nat :=
  672 + 2 ^ 14 * 2 + (cfgs.map (fun cfg => 2 ^ cfg.index_bits * (cfg.tag_bits + 3 + 2))).sum

/-- Follows the specification's words: convert the total bit cost to bytes
(rounding up) and pass exactly when it does not exceed the byte budget. -/
def specBudgetPasses (cfgs : List TableConfig) : Bool :=
  decide ((specTotalBits cfgs + 7) / 8 ≤ 192 * 1024)

/-- A table-bank configuration exhibiting the divergence between
`check_memory_budget` and the specification's formula: its tables plus GHR
plus base fit the byte budget, but the RL-weight term the code also charges
pushes the code's estimate over it. -/
def divergingCfgs : List TableConfig := [⟨4, 16, 18⟩, ⟨6, 10, 7⟩]

/-- State reached by: `predict` for identity 16 at PC 2 (no tag matches on
the cold tables, so the base predictor provides), then `history_update`
for identity 16 pushing `true`. -/
def stOnePush : PState := history_update (predict cold 16 2).2 16 true

/-- The configured range of one tagged entry: `TAGE_PRED_BITS = 3` gives a
signed counter in [-4, 3], `TAGE_USEFUL_BITS = 2` gives usefulness in
[0, 3]. -/
def InvEntry (e : TaggedEntry) : Prop :=
  -4 ≤ e.ctr ∧ e.ctr ≤ 3 ∧ e.u ≤ 3

/-- Every saturating field of the predictor within its configured range:
tagged counters in [-4, 3], usefulness in [0, 3], base counters in [-2, 1]
(`BASE_PRED_BITS = 2`), the meta-counter `use_alt_on_na` in [0, 15]
(4-bit). -/
def Inv (st : PState) : Prop :=
  (∀ i idx, InvEntry (st.tagged i idx))
  ∧ (∀ n, -2 ≤ st.base_table n ∧ st.base_table n ≤ 1)
  ∧ st.use_alt_on_na ≤ 15

/-- A checkpoint whose provider is table 0, recorded at cycle 0. -/
def cpProv0 : SpeculativeState :=
  { provider_table := some 0, altpred := true, final_pred := true,
    pred_cycle := some 0, prediction := [] }

/-- A state with one live checkpoint whose provider is table 0, used to
instantiate hypothesis-bearing theorems about `update`. -/
def stProv0 : PState :=
  { cold with
      ghr := [true]
      spec_states := fun n => if n = 5 then some cpProv0 else none }

end P3

namespace TG

/-- `struct SpeculativeState` of the tage_good variant: it snapshots the
whole GHR rather than a cycle offset. -/
structure TGSpecState where
  ghr_snapshot : List Bool
  provider_table : Option Nat
  altpred : Bool
  final_pred : Bool
deriving DecidableEq, Repr

/-- Mutable state of the tage_good `SampleCondPredictor` (the fields
`predict` reads and writes). -/
structure TGState where
  base_table : Nat → Int
  tagged : Nat → Nat → TaggedEntry
  ghr : List Bool
  use_alt_on_na : Nat
  reset_counter : Nat
  spec_states : Nat → Option TGSpecState

/-- The table index `predict` computes for table `i` (the tage_good
`compute_hash` has no skip parameter). -/
def idxOf (st : TGState) (pc i : Nat) : Nat :=
  compute_hash pc st.ghr (cfgAt i).hist_len 0 (cfgAt i).index_bits % 2 ^ (cfgAt i).index_bits

/-- The tag `predict` computes for table `i`. -/
def tagOf (st : TGState) (pc i : Nat) : Nat :=
  compute_hash pc st.ghr (cfgAt i).hist_len 0 (cfgAt i).tag_bits

/-- Whether table `i` hits: `table[idx].tag == tag`. -/
def tmatch (st : TGState) (pc i : Nat) : Bool :=
  decide ((st.tagged i (idxOf st pc i)).tag = tagOf st pc i)

/-- The descending scan `for (int i = n - 1; i >= 0; --i)`: first matching
table below `n`, scanning from the top. -/
def provScan (st : TGState) (pc : Nat) : Nat → Option Nat
  | 0 => none
  | n + 1 => if tmatch st pc n then some n else provScan st pc n

/-- The provider chosen by `predict`: the first hit scanning table 11 down
to table 0. -/
def provider (st : TGState) (pc : Nat) : Option Nat :=
  provScan st pc 12

/-- The base predictor output. -/
def basePred (st : TGState) (pc : Nat) : Bool :=
  decide (0 ≤ st.base_table (pc % 2 ^ 14))

/-- The direction bit of table `i`'s hit entry: `ctr >= 0`. -/
def ctrBit (st : TGState) (pc i : Nat) : Bool :=
  decide (0 ≤ (st.tagged i (idxOf st pc i)).ctr)

/-- The alternate bit of `predict`: initialized to the base prediction and
overwritten by the first hit strictly below the provider. -/
def altBit (st : TGState) (pc : Nat) : Bool :=
  match provider st pc with
  | some p =>
      match provScan st pc p with
      | some a => ctrBit st pc a
      | none => basePred st pc
  | none => basePred st pc

/-- `predict` of `src/stash/my_cond_branch_predictor_tage_good.h`: provider
and alternate from the descending scan, weak-provider override through
`use_alt_on_na`, checkpoint with a full GHR snapshot. -/
def predict (st : TGState) (id pc : Nat) : Bool × TGState :=
  let bp := basePred st pc
  let prov := provider st pc
  let alt := altBit st pc
  let final :=
    match prov with
    | some p =>
        if (st.tagged p (idxOf st pc p)).ctr.natAbs ≤ 1 ∧ 8 ≤ st.use_alt_on_na then alt
        else ctrBit st pc p
    | none => bp
  let cp : TGSpecState :=
    { ghr_snapshot := st.ghr, provider_table := prov, altpred := alt, final_pred := final }
  (final, { st with spec_states := fun n => if n = id then some cp else st.spec_states n })

/-- The constructed (cold) tage_good predictor. -/
def coldTG : TGState :=
  { base_table := fun _ => 0
    tagged := fun _ _ => ⟨0, 0, 0⟩
    ghr := []
    use_alt_on_na := 8
    reset_counter := 0
    spec_states := fun _ => none }

end TG

end CBPSim

namespace CBPSim

/-! ## Helper lemmas -/

lemma deltaCycles_add_mod (c delta : Nat) (hc : c < 256) (hd : delta < 256) :
    P3.deltaCycles ((c + delta) % 256) c = delta := by
  unfold P3.deltaCycles
  omega

lemma deltaCycles_zero (p : Nat) (hp : p < 256) : P3.deltaCycles p 0 = p := by
  unfold P3.deltaCycles
  omega

lemma pushMany_cons (st : P3.PState) (p : Nat × Bool) (ps : List (Nat × Bool)) :
    P3.pushMany st (p :: ps) = P3.pushMany (P3.history_update st p.1 p.2) ps := rfl

lemma history_update_pred_cycle (st : P3.PState) (id : Nat) (t : Bool) :
    (P3.history_update st id t).pred_cycle = (st.pred_cycle + 1) % 256 := rfl

lemma pushMany_pred_cycle :
    ∀ (ps : List (Nat × Bool)) (st : P3.PState), st.pred_cycle < 256 →
      (P3.pushMany st ps).pred_cycle = (st.pred_cycle + ps.length) % 256 := by
  intro ps
  induction ps with
  | nil => intro st h; simp [P3.pushMany]; omega
  | cons p ps ih =>
      intro st h
      rw [pushMany_cons, ih _ (by rw [history_update_pred_cycle]; omega),
        history_update_pred_cycle]
      simp only [List.length_cons]
      omega

lemma pushMany_ghr_no_pop :
    ∀ (ps : List (Nat × Bool)) (st : P3.PState), st.ghr.length + ps.length ≤ 672 →
      (P3.pushMany st ps).ghr = st.ghr ++ ps.map Prod.snd := by
  intro ps
  induction ps with
  | nil => intro st h; simp [P3.pushMany]
  | cons p ps ih =>
      intro st h
      have hlen : ¬ (672 < st.ghr.length + 1) := by
        simp only [List.length_cons] at h
        omega
      have hg : (P3.history_update st p.1 p.2).ghr = st.ghr ++ [p.2] := by
        simp [P3.history_update, hlen]
      rw [pushMany_cons, ih _ (by rw [hg]; simp at *; omega), hg]
      simp

lemma pushMany_spec_states :
    ∀ (ps : List (Nat × Bool)) (st : P3.PState) (id : Nat), id ∉ ps.map Prod.fst →
      (P3.pushMany st ps).spec_states id = st.spec_states id := by
  intro ps
  induction ps with
  | nil => intro st id h; rfl
  | cons p ps ih =>
      intro st id h
      simp only [List.map_cons, List.mem_cons, not_or] at h
      rw [pushMany_cons, ih _ _ h.2]
      simp [P3.history_update, h.1]

lemma update_mispredict_eq (st : P3.PState) (id pc : Nat) (r d : Bool)
    (cp : P3.SpeculativeState) (c delta : Nat)
    (h1 : st.spec_states id = some cp) (h2 : cp.pred_cycle = some c)
    (hδ : P3.deltaCycles st.pred_cycle c = delta) (hrd : r ≠ d)
    (hub : ¬ (st.ghr.length < delta + 1)) (hrc : ¬ (524288 ≤ st.reset_counter + 1)) :
    P3.update st id pc r d = some
      { pred_cycle := st.pred_cycle
        base_table := P3.baseAfter st cp pc r
        weights := P3.weightsAfter st cp pc delta (st.ghr.set (st.ghr.length - delta - 1) r) r d
        tagged := P3.taggedAfter st cp pc delta (st.ghr.set (st.ghr.length - delta - 1) r) r d
        ghr := st.ghr.set (st.ghr.length - delta - 1) r
        use_alt_on_na := P3.uaAfter st cp r d
        reset_counter := st.reset_counter + 1
        spec_states := fun n => if n = id then none else st.spec_states n } := by
  simp [P3.update, h1, h2, hδ, hrd, hub, hrc]

lemma scanLoop_fst_match :
    ∀ (l : List Nat) (st : P3.PState) (pc : Nat) (prov : Option Nat) (p : Nat),
      (P3.scanLoop st pc l prov).1 = some p →
      prov = some p ∨ (st.tagged p (P3.predIdx st pc p)).tag = P3.predTag st pc p := by
  intro l
  induction l with
  | nil => intro st pc prov p h; exact Or.inl h
  | cons i rest ih =>
      intro st pc prov p h
      match hp : prov with
      | none =>
          rw [P3.scanLoop] at h
          by_cases hm : (st.tagged i (P3.predIdx st pc i)).tag = P3.predTag st pc i
          · rw [if_pos hm] at h
            rcases ih st pc (some i) p h with h1 | h1
            · exact Or.inr (Option.some.inj h1 ▸ hm)
            · exact Or.inr h1
          · rw [if_neg hm] at h
            rcases ih st pc none p h with h1 | h1
            · exact absurd h1 (by simp)
            · exact Or.inr h1
      | some q =>
          rw [P3.scanLoop] at h
          by_cases hm : (st.tagged i (P3.predIdx st pc i)).tag = P3.predTag st pc i
          · rw [if_pos hm] at h
            exact Or.inl h
          · rw [if_neg hm] at h
            exact ih st pc (some q) p h

lemma provScan_eq_some :
    ∀ (n : Nat) (st : TG.TGState) (pc i : Nat), TG.provScan st pc n = some i →
      i < n ∧ TG.tmatch st pc i = true ∧ ∀ j, i < j → j < n → TG.tmatch st pc j = false := by
  intro n
  induction n with
  | zero => intro st pc i h; exact absurd h (by simp [TG.provScan])
  | succ n ih =>
      intro st pc i h
      rw [TG.provScan] at h
      by_cases hm : TG.tmatch st pc n = true
      · rw [if_pos hm] at h
        obtain rfl : n = i := Option.some.inj h
        exact ⟨Nat.lt_succ_self n, hm, fun j hj1 hj2 => absurd hj2 (by omega)⟩
      · rw [if_neg hm] at h
        rw [Bool.not_eq_true] at hm
        obtain ⟨h1, h2, h3⟩ := ih st pc i h
        refine ⟨by omega, h2, fun j hj1 hj2 => ?_⟩
        rcases Nat.lt_succ_iff_lt_or_eq.mp hj2 with hj | hj
        · exact h3 j hj1 hj
        · subst hj; exact hm

lemma provScan_eq_none :
    ∀ (n : Nat) (st : TG.TGState) (pc : Nat),
      TG.provScan st pc n = none ↔ ∀ j, j < n → TG.tmatch st pc j = false := by
  intro n
  induction n with
  | zero => intro st pc; simp [TG.provScan]
  | succ n ih =>
      intro st pc
      rw [TG.provScan]
      by_cases hm : TG.tmatch st pc n = true
      · rw [if_pos hm]
        constructor
        · intro h; exact absurd h (by simp)
        · intro hall; exact absurd (hall n (Nat.lt_succ_self n)) (by simp [hm])
      · rw [if_neg hm, Bool.not_eq_true] at *
        rw [ih]
        constructor
        · intro hall j hj
          rcases Nat.lt_succ_iff_lt_or_eq.mp hj with hj1 | hj1
          · exact hall j hj1
          · subst hj1; exact hm
        · intro hall j hj
          exact hall j (by omega)

lemma firstFree_some_char :
    ∀ (n a : Nat) (t : Nat → Nat → TaggedEntry) (pc : Nat) (g : List Bool) (delta k : Nat),
      P3.firstFree t pc g delta (List.range' a n) = some k →
      a ≤ k ∧ k < a + n ∧ (t k (P3.updIdx pc g delta k)).u = 0
      ∧ ∀ j, a ≤ j → j < k → (t j (P3.updIdx pc g delta j)).u ≠ 0 := by
  intro n
  induction n with
  | zero => intro a t pc g delta k h; exact absurd h (by simp [P3.firstFree])
  | succ n ih =>
      intro a t pc g delta k h
      rw [List.range'_succ, P3.firstFree] at h
      by_cases hu : (t a (P3.updIdx pc g delta a)).u = 0
      · rw [if_pos hu] at h
        obtain rfl : a = k := Option.some.inj h
        exact ⟨Nat.le_refl a, by omega, hu, fun j hj1 hj2 => absurd hj1 (by omega)⟩
      · rw [if_neg hu] at h
        obtain ⟨h1, h2, h3, h4⟩ := ih (a + 1) t pc g delta k h
        refine ⟨by omega, by omega, h3, fun j hj1 hj2 => ?_⟩
        rcases Nat.eq_or_lt_of_le hj1 with hj | hj
        · subst hj; exact hu
        · exact h4 j hj hj2

lemma firstFree_none_char :
    ∀ (n a : Nat) (t : Nat → Nat → TaggedEntry) (pc : Nat) (g : List Bool) (delta : Nat),
      P3.firstFree t pc g delta (List.range' a n) = none →
      ∀ j, a ≤ j → j < a + n → (t j (P3.updIdx pc g delta j)).u ≠ 0 := by
  intro n
  induction n with
  | zero => intro a t pc g delta h j hj1 hj2; omega
  | succ n ih =>
      intro a t pc g delta h j hj1 hj2
      rw [List.range'_succ, P3.firstFree] at h
      by_cases hu : (t a (P3.updIdx pc g delta a)).u = 0
      · rw [if_pos hu] at h; exact absurd h (by simp)
      · rw [if_neg hu] at h
        rcases Nat.eq_or_lt_of_le hj1 with hj | hj
        · subst hj; exact hu
        · exact ih (a + 1) t pc g delta h j hj (by omega)

lemma firstFree_setTagged_ne :
    ∀ (l : List Nat) (t : Nat → Nat → TaggedEntry) (p idx : Nat) (e : TaggedEntry)
      (pc : Nat) (g : List Bool) (delta : Nat), (∀ k ∈ l, k ≠ p) →
      P3.firstFree (P3.setTagged t p idx e) pc g delta l = P3.firstFree t pc g delta l := by
  intro l
  induction l with
  | nil => intro t p idx e pc g delta h; rfl
  | cons k rest ih =>
      intro t p idx e pc g delta h
      have hk : k ≠ p := h k (List.mem_cons_self k rest)
      have hr : ∀ j ∈ rest, j ≠ p := fun j hj => h j (List.mem_cons_of_mem k hj)
      rw [P3.firstFree, P3.firstFree, ih t p idx e pc g delta hr]
      simp [P3.setTagged, hk]

lemma foldl_add_init (f : TableConfig → Nat) :
    ∀ (cfgs : List TableConfig) (a : Nat),
      cfgs.foldl (fun acc cfg => acc + f cfg) a = a + (cfgs.map f).sum := by
  intro cfgs
  induction cfgs with
  | nil => intro a; simp
  | cons c cs ih => intro a; simp [List.foldl_cons, ih]; omega

lemma invEntry_entryAfter (e : TaggedEntry) (alt r d : Bool) (h : P3.InvEntry e) :
    P3.InvEntry (P3.entryAfter e alt r d) := by
  obtain ⟨h1, h2, h3⟩ := h
  unfold P3.entryAfter P3.InvEntry
  cases r <;> cases d <;> cases alt <;> simp <;> omega

lemma invEntry_setTagged (t : Nat → Nat → TaggedEntry) (p idx : Nat) (e : TaggedEntry)
    (ht : ∀ i j, P3.InvEntry (t i j)) (he : P3.InvEntry e) :
    ∀ i j, P3.InvEntry (P3.setTagged t p idx e i j) := by
  intro i j
  unfold P3.setTagged
  split
  · exact he
  · exact ht i j

lemma invEntry_alloc (tag : Nat) (r : Bool) :
    P3.InvEntry { tag := tag, ctr := if r then 0 else -1, u := 0 } := by
  cases r <;> simp [P3.InvEntry]

lemma invEntry_taggedAfter (st : P3.PState) (cp : P3.SpeculativeState) (pc delta : Nat)
    (g1 : List Bool) (r d : Bool) (ht : ∀ i j, P3.InvEntry (st.tagged i j)) :
    ∀ i j, P3.InvEntry (P3.taggedAfter st cp pc delta g1 r d i j) := by
  intro i j
  rcases hp : cp.provider_table with _ | p <;> simp only [P3.taggedAfter, hp]
  · exact ht i j
  · have h1 := invEntry_setTagged st.tagged p (P3.updIdx pc g1 delta p)
      (P3.entryAfter (st.tagged p (P3.updIdx pc g1 delta p)) cp.altpred r d) ht
      (invEntry_entryAfter _ cp.altpred r d (ht _ _))
    split
    · rcases hff : P3.firstFree
          (P3.setTagged st.tagged p (P3.updIdx pc g1 delta p)
            (P3.entryAfter (st.tagged p (P3.updIdx pc g1 delta p)) cp.altpred r d))
          pc g1 delta (List.range' (p + 1) (11 - p)) with _ | k <;> simp only [hff]
      · exact h1 i j
      · exact invEntry_setTagged _ k (P3.updIdx pc g1 delta k) _ h1 (invEntry_alloc _ r) i j
    · exact h1 i j

lemma inv_mk (pcyc : Nat) (bt : Nat → Int) (w : Nat → Nat → Int)
    (tt : Nat → Nat → TaggedEntry) (g : List Bool) (ua rc : Nat)
    (ss : Nat → Option P3.SpeculativeState)
    (h1 : ∀ i j, P3.InvEntry (tt i j)) (h2 : ∀ n, -2 ≤ bt n ∧ bt n ≤ 1) (h3 : ua ≤ 15) :
    P3.Inv { pred_cycle := pcyc, base_table := bt, weights := w, tagged := tt, ghr := g,
             use_alt_on_na := ua, reset_counter := rc, spec_states := ss } :=
  ⟨h1, h2, h3⟩

lemma invEntry_resetOpt (t : Nat → Nat → TaggedEntry) (h : ∀ i j, P3.InvEntry (t i j))
    (b : Prop) [Decidable b] :
    ∀ i j, P3.InvEntry
      ((if b then fun i idx => { tag := (t i idx).tag, ctr := (t i idx).ctr,
                                 u := (t i idx).u / 2 } else t) i j) := by
  intro i j
  obtain ⟨ha, hb, hc⟩ := h i j
  split
  · exact ⟨ha, hb, by dsimp only; omega⟩
  · exact ⟨ha, hb, hc⟩

lemma invEntry_halved (t : Nat → Nat → TaggedEntry) (h : ∀ i j, P3.InvEntry (t i j)) :
    ∀ i j, P3.InvEntry { tag := (t i j).tag, ctr := (t i j).ctr, u := (t i j).u / 2 } := by
  intro i j
  obtain ⟨ha, hb, hc⟩ := h i j
  refine ⟨ha, hb, ?_⟩
  show (t i j).u / 2 ≤ 3
  omega

lemma base_bounds_baseAfter (st : P3.PState) (cp : P3.SpeculativeState) (pc : Nat) (r : Bool)
    (hb : ∀ n, -2 ≤ st.base_table n ∧ st.base_table n ≤ 1) :
    ∀ n, -2 ≤ P3.baseAfter st cp pc r n ∧ P3.baseAfter st cp pc r n ≤ 1 := by
  intro n
  rcases hp : cp.provider_table with _ | p <;> simp only [P3.baseAfter, hp]
  · have := hb (pc % 2 ^ 14)
    have := hb n
    split
    · split <;> omega
    · omega
  · exact hb n

lemma ua_bounds_uaAfter (st : P3.PState) (cp : P3.SpeculativeState) (r d : Bool)
    (hu : st.use_alt_on_na ≤ 15) : P3.uaAfter st cp r d ≤ 15 := by
  rcases hp : cp.provider_table with _ | p <;> simp only [P3.uaAfter, hp]
  · exact hu
  · split
    · omega
    · split <;> omega

lemma inv_update (st : P3.PState) (id pc : Nat) (r d : Bool) (st' : P3.PState)
    (h : P3.update st id pc r d = some st') (hinv : P3.Inv st) : P3.Inv st' := by
  obtain ⟨ht, hb, hu⟩ := hinv
  unfold P3.update at h
  dsimp only at h
  rcases hcp : ((st.spec_states id).getD P3.mapDefault).pred_cycle with _ | c
  · rw [hcp] at h; exact absurd h (by simp)
  · rw [hcp] at h
    dsimp only at h
    split at h
    all_goals try split at h
    all_goals try split at h
    case intro.intro.some.isTrue.isTrue => exact absurd h (by simp)
    case intro.intro.some.isFalse.isTrue => exact absurd h (by simp)
    case intro.intro.some.isTrue.isFalse.isTrue =>
      obtain rfl := Option.some.inj h
      refine ⟨?_, base_bounds_baseAfter st _ pc r hb, ua_bounds_uaAfter st _ r d hu⟩
      exact invEntry_halved _ (invEntry_taggedAfter st _ pc _ _ r d ht)
    case intro.intro.some.isTrue.isFalse.isFalse =>
      obtain rfl := Option.some.inj h
      exact ⟨invEntry_taggedAfter st _ pc _ _ r d ht, base_bounds_baseAfter st _ pc r hb,
        ua_bounds_uaAfter st _ r d hu⟩
    case intro.intro.some.isFalse.isFalse.isTrue =>
      obtain rfl := Option.some.inj h
      refine ⟨?_, base_bounds_baseAfter st _ pc r hb, ua_bounds_uaAfter st _ r d hu⟩
      exact invEntry_halved _ (invEntry_taggedAfter st _ pc _ _ r d ht)
    case intro.intro.some.isFalse.isFalse.isFalse =>
      obtain rfl := Option.some.inj h
      exact ⟨invEntry_taggedAfter st _ pc _ _ r d ht, base_bounds_baseAfter st _ pc r hb,
        ua_bounds_uaAfter st _ r d hu⟩

lemma inv_stepOp (st : P3.PState) (op : P3.Op) (hinv : P3.Inv st) :
    P3.Inv (P3.stepOp st op) := by
  cases op with
  | predictOp s p pc => exact hinv
  | historyOp s p t => exact hinv
  | updateOp s p pc r d =>
      show P3.Inv ((P3.update st (P3.get_unique_inst_id s p) pc r d).getD st)
      rcases hup : P3.update st (P3.get_unique_inst_id s p) pc r d with _ | st'
      · simpa using hinv
      · simpa using inv_update st _ pc r d st' hup hinv

lemma inv_cold : P3.Inv P3.cold :=
  ⟨fun _ _ => ⟨by simp [P3.cold], by simp [P3.cold], by simp [P3.cold]⟩,
   fun _ => ⟨by simp [P3.cold], by simp [P3.cold]⟩, by simp [P3.cold]⟩

lemma inv_foldl :
    ∀ (ops : List P3.Op) (st : P3.PState), P3.Inv st → P3.Inv (ops.foldl P3.stepOp st) := by
  intro ops
  induction ops with
  | nil => intro st h; exact h
  | cons op ops ih => intro st h; exact ih _ (inv_stepOp st op h)


/-! ## Claim theorems -/

set_option maxRecDepth 8192 in
/-- C1 (counterexample): the rollback delta is an 8-bit counter difference,
so with exactly 256 speculative bits pushed by another identity (id 32)
after identity 16's own bit, `update` with `resolvedTaken = false ≠
predictedTaken = true` computes `delta_cycles = 0`: the GHR bit at the
claim's position `length − 256 − 1 = 0` (this branch's bit) stays `true`
instead of becoming `false`, and the bit at position 256, pushed by the
other, still-open identity, is overwritten to `false`. -/
theorem ghr_rollback_wraps_after_256_pushes :
    (P3.pushMany P3.stOnePush (List.replicate 256 (32, true))).ghr.length = 257
    ∧ (P3.pushMany P3.stOnePush (List.replicate 256 (32, true))).ghr[0]? = some true
    ∧ (P3.update (P3.pushMany P3.stOnePush (List.replicate 256 (32, true))) 16 2 false true).map
        (fun s => s.ghr[0]?) = some (some true)
    ∧ (P3.update (P3.pushMany P3.stOnePush (List.replicate 256 (32, true))) 16 2 false true).map
        (fun s => s.ghr[256]?) = some (some false) := by
  have h1 : P3.stOnePush.pred_cycle = 1 := by decide
  have hg1 : P3.stOnePush.ghr = [true] := by decide
  have hs1 : P3.stOnePush.spec_states 16 =
      some { provider_table := none, altpred := true, final_pred := true,
             pred_cycle := some 1, prediction := [0, 0, 0, 0, 0, 0, 0, 0, 0, 0, 0, 0] } := by
    decide
  have hpc : (P3.pushMany P3.stOnePush (List.replicate 256 (32, true))).pred_cycle = 1 := by
    rw [pushMany_pred_cycle _ _ (by rw [h1]; omega), h1]
    simp
  have hg2 : (P3.pushMany P3.stOnePush (List.replicate 256 (32, true))).ghr
      = true :: List.replicate 256 true := by
    rw [pushMany_ghr_no_pop _ _ (by rw [hg1]; simp), hg1]
    simp
  have hs2 : (P3.pushMany P3.stOnePush (List.replicate 256 (32, true))).spec_states 16 =
      some { provider_table := none, altpred := true, final_pred := true,
             pred_cycle := some 1, prediction := [0, 0, 0, 0, 0, 0, 0, 0, 0, 0, 0, 0] } := by
    rw [pushMany_spec_states, hs1]
    simp [List.map_replicate, List.mem_replicate]
  have hδ : P3.deltaCycles 1 1 = 0 := by decide
  refine ⟨by rw [hg2]; simp, by rw [hg2]; rfl, ?_, ?_⟩ <;>
    simp only [P3.update, hs2, hpc, hg2, hδ, Option.getD_some] <;>
    simp [List.getElem?_set_ne, List.getElem?_set_self]

/-- C1 (amended: the identity's bit was pushed and strictly fewer than 256
further speculative bits followed it): when `resolvedTaken ≠
predictedTaken`, `update` overwrites exactly the GHR bit at position
`length − delta − 1` with `resolvedTaken`, and every other GHR bit keeps
its previous value. -/
theorem rollback_overwrites_exactly_one_bit :
    ∀ (st : P3.PState) (id pc : Nat) (r d : Bool) (cp : P3.SpeculativeState) (c delta : Nat),
      st.spec_states id = some cp → cp.pred_cycle = some c → c < 256 →
      st.pred_cycle = (c + delta) % 256 → delta < 256 →
      delta + 1 ≤ st.ghr.length → r ≠ d →
      (P3.update st id pc r d).map (fun s => s.ghr)
          = some (st.ghr.set (st.ghr.length - delta - 1) r)
      ∧ (st.ghr.set (st.ghr.length - delta - 1) r)[st.ghr.length - delta - 1]? = some r
      ∧ ∀ j, j ≠ st.ghr.length - delta - 1 →
          (st.ghr.set (st.ghr.length - delta - 1) r)[j]? = st.ghr[j]? := by
  intro st id pc r d cp c delta h1 h2 hc hpc hdlt hlen hrd
  have hδ : P3.deltaCycles st.pred_cycle c = delta := by
    rw [hpc]; exact deltaCycles_add_mod c delta hc hdlt
  have hub : ¬ (st.ghr.length < delta + 1) := by omega
  refine ⟨?_, ?_, ?_⟩
  · simp [P3.update, h1, h2, hδ, hrd, hub]
  · exact List.getElem?_set_self (by omega)
  · intro j hj
    exact List.getElem?_set_ne (fun h => hj h.symm)

/-- C1 (witness): the amended rollback theorem instantiated at `stProv0`
(checkpoint at cycle 0, one GHR bit, delta 0, mispredicted resolution). -/
theorem rollback_overwrites_exactly_one_bit_witness :
    (P3.stProv0.spec_states 5 = some P3.cpProv0 ∧ P3.cpProv0.pred_cycle = some 0
      ∧ P3.stProv0.pred_cycle = (0 + 0) % 256 ∧ 0 + 1 ≤ P3.stProv0.ghr.length)
    ∧ ((P3.update P3.stProv0 5 7 false true).map (fun s => s.ghr)
          = some (P3.stProv0.ghr.set (P3.stProv0.ghr.length - 0 - 1) false)
      ∧ (P3.stProv0.ghr.set (P3.stProv0.ghr.length - 0 - 1)
          false)[P3.stProv0.ghr.length - 0 - 1]? = some false
      ∧ ∀ j, j ≠ P3.stProv0.ghr.length - 0 - 1 →
          (P3.stProv0.ghr.set (P3.stProv0.ghr.length - 0 - 1) false)[j]?
            = P3.stProv0.ghr[j]?) :=
  ⟨by decide,
   rollback_overwrites_exactly_one_bit P3.stProv0 5 7 false true P3.cpProv0 0 0
     (by decide) (by decide) (by decide) (by decide) (by decide) (by decide) (by decide)⟩

/-- C2 (counterexample): `update` on the cold predictor, for an identity
that never had a `predict`, does not abort: `std::map::operator[]`
value-initializes a zeroed checkpoint and `update` proceeds, mutating
tagged table 0 (the zeroed `provider_table`) and erasing nothing loudly. -/
theorem update_without_checkpoint_proceeds :
    P3.cold.spec_states 7 = none
    ∧ (P3.update P3.cold 7 5 true true).isSome = true
    ∧ (P3.update P3.cold 7 5 true true).map (fun s => s.tagged 0 5) = some ⟨0, 1, 1⟩ := by
  decide

/-- C2 (amended): calling `update` for an identity with no live checkpoint
(never predicted, or already resolved and erased) does not fail loudly:
the checkpoint read through `std::map::operator[]` is the zero-initialized
struct (`provider_table = 0`, `pred_cycle = 0`), and `update` proceeds
against it — the GHR stays untouched (matching resolution assumed), the
identity still has no checkpoint afterwards, and tagged table 0's entry at
the recomputed index receives the counter/usefulness step. -/
theorem update_missing_checkpoint_uses_zeroed_state :
    ∀ (st : P3.PState) (id pc : Nat) (b : Bool),
      st.spec_states id = none → st.pred_cycle < 256 → st.pred_cycle ≤ st.ghr.length →
      st.reset_counter + 1 < 524288 →
      (P3.update st id pc b b).isSome = true
      ∧ (P3.update st id pc b b).map (fun s => s.spec_states id) = some none
      ∧ (P3.update st id pc b b).map (fun s => s.ghr) = some st.ghr
      ∧ (P3.update st id pc b b).map (fun s => s.tagged 0 (P3.updIdx pc st.ghr st.pred_cycle 0))
          = some (if b then
              { st.tagged 0 (P3.updIdx pc st.ghr st.pred_cycle 0) with
                  ctr := min ((st.tagged 0 (P3.updIdx pc st.ghr st.pred_cycle 0)).ctr + 1) 3,
                  u := min ((st.tagged 0 (P3.updIdx pc st.ghr st.pred_cycle 0)).u + 1) 3 }
            else
              { st.tagged 0 (P3.updIdx pc st.ghr st.pred_cycle 0) with
                  ctr := max ((st.tagged 0 (P3.updIdx pc st.ghr st.pred_cycle 0)).ctr - 1) (-4) }) := by
  intro st id pc b h1 h2 h3 h4
  have hδ : P3.deltaCycles st.pred_cycle 0 = st.pred_cycle := deltaCycles_zero _ h2
  have hlt : ¬ (st.ghr.length < st.pred_cycle) := by omega
  have hrc : ¬ (524288 ≤ st.reset_counter + 1) := by omega
  cases b <;>
    simp [P3.update, h1, P3.mapDefault, hδ, hlt, hrc, P3.taggedAfter, P3.entryAfter,
      P3.setTagged]

/-- C2 (witness): the amended missing-checkpoint theorem instantiated on
the cold predictor. -/
theorem update_missing_checkpoint_witness :
    (P3.cold.spec_states 9 = none ∧ P3.cold.pred_cycle < 256
      ∧ P3.cold.pred_cycle ≤ P3.cold.ghr.length ∧ P3.cold.reset_counter + 1 < 524288)
    ∧ ((P3.update P3.cold 9 5 true true).isSome = true
      ∧ (P3.update P3.cold 9 5 true true).map (fun s => s.spec_states 9) = some none
      ∧ (P3.update P3.cold 9 5 true true).map (fun s => s.ghr) = some P3.cold.ghr
      ∧ (P3.update P3.cold 9 5 true true).map
            (fun s => s.tagged 0 (P3.updIdx 5 P3.cold.ghr P3.cold.pred_cycle 0))
          = some (if true then
              { P3.cold.tagged 0 (P3.updIdx 5 P3.cold.ghr P3.cold.pred_cycle 0) with
                  ctr := min ((P3.cold.tagged 0 (P3.updIdx 5 P3.cold.ghr P3.cold.pred_cycle 0)).ctr + 1) 3,
                  u := min ((P3.cold.tagged 0 (P3.updIdx 5 P3.cold.ghr P3.cold.pred_cycle 0)).u + 1) 3 }
            else
              { P3.cold.tagged 0 (P3.updIdx 5 P3.cold.ghr P3.cold.pred_cycle 0) with
                  ctr := max ((P3.cold.tagged 0 (P3.updIdx 5 P3.cold.ghr P3.cold.pred_cycle 0)).ctr - 1) (-4) })) :=
  ⟨by decide,
   update_missing_checkpoint_uses_zeroed_state P3.cold 9 5 true
     (by decide) (by decide) (by decide) (by decide)⟩

/-- C3: in the tage_good variant, `predict` chooses as provider the first
(index, tag)-hit scanning from the longest history length to the shortest
(table indices descend, and `hist_len` is strictly increasing in the table
index), the alternate is the first further hit among strictly
shorter-history tables, and when no table hits, both the returned
prediction and the alternate are the base predictor's output. -/
theorem tg_provider_longest_alternate_next :
    ∀ (st : TG.TGState) (id pc : Nat),
      (∀ j, j < 12 → ∀ i, i < j → (cfgAt i).hist_len < (cfgAt j).hist_len)
      ∧ (∀ p, TG.provider st pc = some p →
          p < 12 ∧ TG.tmatch st pc p = true
          ∧ (∀ j, p < j → j < 12 → TG.tmatch st pc j = false))
      ∧ (TG.provider st pc = none ↔ ∀ j, j < 12 → TG.tmatch st pc j = false)
      ∧ (∀ p a, TG.provider st pc = some p → TG.provScan st pc p = some a →
          a < p ∧ TG.tmatch st pc a = true
          ∧ (∀ j, a < j → j < p → TG.tmatch st pc j = false)
          ∧ TG.altBit st pc = TG.ctrBit st pc a)
      ∧ (∀ p, TG.provider st pc = some p → TG.provScan st pc p = none →
          (∀ j, j < p → TG.tmatch st pc j = false)
          ∧ TG.altBit st pc = TG.basePred st pc)
      ∧ (TG.provider st pc = none →
          (TG.predict st id pc).1 = TG.basePred st pc
          ∧ TG.altBit st pc = TG.basePred st pc) := by
  intro st id pc
  refine ⟨by decide, ?_, provScan_eq_none 12 st pc, ?_, ?_, ?_⟩
  · intro p hp
    exact provScan_eq_some 12 st pc p hp
  · intro p a hp ha
    obtain ⟨h1, h2, h3⟩ := provScan_eq_some p st pc a ha
    refine ⟨h1, h2, h3, ?_⟩
    simp only [TG.altBit, hp, ha]
  · intro p hp hn
    refine ⟨(provScan_eq_none p st pc).mp hn, ?_⟩
    simp only [TG.altBit, hp, hn]
  · intro hn
    constructor
    · simp only [TG.predict, hn]
    · simp only [TG.altBit, hn]

/-- C3 (witness): on the cold tage_good predictor at PC 0x1000 the provider
is table 8 (tag width 12; all wider-tag tables miss), and no longer-history
table hits. -/
theorem tg_provider_witness :
    (TG.provider TG.coldTG 4096 = some 8)
    ∧ (8 < 12 ∧ TG.tmatch TG.coldTG 4096 8 = true
        ∧ (∀ j, 8 < j → j < 12 → TG.tmatch TG.coldTG 4096 j = false)) :=
  ⟨by decide, (tg_provider_longest_alternate_next TG.coldTG 0 4096).2.1 8 (by decide)⟩

/-- C4 (amended: allocation is attempted only when a tagged table was the
provider; when the base predictor provided, `update` performs no allocation
at all): on a mispredicted resolution with provider table `p`, the tables
`p+1 .. 11` (ascending index = nearest longer history first) are scanned,
the first entry with usefulness 0 gets its tag overwritten, its counter
seeded weakly toward `resolvedTaken` (0 or -1) and its usefulness reset to
0, every other table's entries are untouched; when no scanned entry has
usefulness 0, nothing is allocated and no error is raised; when the
provider was the base predictor, every tagged entry is unchanged. -/
theorem misprediction_allocation_policy :
    ∀ (st : P3.PState) (id pc : Nat) (r d : Bool) (cp : P3.SpeculativeState)
      (c delta : Nat) (g1 : List Bool),
      st.spec_states id = some cp → cp.pred_cycle = some c → c < 256 →
      st.pred_cycle = (c + delta) % 256 → delta < 256 →
      delta + 1 ≤ st.ghr.length → r ≠ d → st.reset_counter + 1 < 524288 →
      (∀ q, cp.provider_table = some q → q < 12) →
      g1 = st.ghr.set (st.ghr.length - delta - 1) r →
      (P3.update st id pc r d).isSome = true
      ∧ match cp.provider_table with
        | some p =>
            (∀ k, P3.firstFree st.tagged pc g1 delta (List.range' (p + 1) (11 - p)) = some k →
                p < k ∧ k < 12
                ∧ (st.tagged k (P3.updIdx pc g1 delta k)).u = 0
                ∧ (∀ j, p < j → j < k → (st.tagged j (P3.updIdx pc g1 delta j)).u ≠ 0)
                ∧ (P3.update st id pc r d).map (fun s => s.tagged k (P3.updIdx pc g1 delta k))
                    = some ⟨P3.updTag pc g1 delta k, if r then 0 else -1, 0⟩
                ∧ ∀ i idx, i ≠ p → i ≠ k →
                    (P3.update st id pc r d).map (fun s => s.tagged i idx)
                      = some (st.tagged i idx))
            ∧ (P3.firstFree st.tagged pc g1 delta (List.range' (p + 1) (11 - p)) = none →
                ∀ i idx, i ≠ p →
                  (P3.update st id pc r d).map (fun s => s.tagged i idx)
                    = some (st.tagged i idx))
        | none => ∀ i idx,
            (P3.update st id pc r d).map (fun s => s.tagged i idx) = some (st.tagged i idx) := by
  intro st id pc r d cp c delta g1 h1 h2 hc hpc hdlt hlen hrd hrc hp12 hg1
  have hδ : P3.deltaCycles st.pred_cycle c = delta := by
    rw [hpc]; exact deltaCycles_add_mod c delta hc hdlt
  have hub : ¬ (st.ghr.length < delta + 1) := by omega
  have hrc2 : ¬ (524288 ≤ st.reset_counter + 1) := by omega
  have hup := update_mispredict_eq st id pc r d cp c delta h1 h2 hδ hrd hub hrc2
  subst hg1
  refine ⟨by rw [hup]; rfl, ?_⟩
  rcases hprov : cp.provider_table with _ | p
  · intro i idx
    rw [hup]
    simp [P3.taggedAfter, hprov]
  · have hmem : ∀ k ∈ List.range' (p + 1) (11 - p), k ≠ p := by
      intro k hk
      rw [List.mem_range'] at hk
      omega
    have hp : p < 12 := hp12 p hprov
    have hconv := firstFree_setTagged_ne (List.range' (p + 1) (11 - p)) st.tagged p
      (P3.updIdx pc (st.ghr.set (st.ghr.length - delta - 1) r) delta p)
      (P3.entryAfter (st.tagged p
        (P3.updIdx pc (st.ghr.set (st.ghr.length - delta - 1) r) delta p)) cp.altpred r d)
      pc (st.ghr.set (st.ghr.length - delta - 1) r) delta hmem
    constructor
    · intro k hk
      obtain ⟨hk1, hk2, hk3, hk4⟩ := firstFree_some_char (11 - p) (p + 1) st.tagged pc _ delta k hk
      refine ⟨by omega, by omega, hk3, fun j hj1 hj2 => hk4 j (by omega) hj2, ?_, ?_⟩
      · rw [hup]
        simp [P3.taggedAfter, hprov, hrd, hconv, hk, P3.setTagged]
      · intro i idx hip hik
        rw [hup]
        simp [P3.taggedAfter, hprov, hrd, hconv, hk, P3.setTagged, hip, hik]
    · intro hk i idx hip
      rw [hup]
      simp [P3.taggedAfter, hprov, hrd, hconv, hk, P3.setTagged, hip]

/-- C4 (witness): the amended allocation theorem instantiated at `stProv0`
(provider table 0, delta 0, mispredicted resolution). -/
theorem misprediction_allocation_policy_witness :
    (P3.stProv0.spec_states 5 = some P3.cpProv0 ∧ P3.cpProv0.pred_cycle = some 0
      ∧ P3.stProv0.pred_cycle = (0 + 0) % 256 ∧ 0 + 1 ≤ P3.stProv0.ghr.length
      ∧ P3.stProv0.reset_counter + 1 < 524288
      ∧ (∀ q, P3.cpProv0.provider_table = some q → q < 12)
      ∧ [false] = P3.stProv0.ghr.set (P3.stProv0.ghr.length - 0 - 1) false)
    ∧ ((P3.update P3.stProv0 5 7 false true).isSome = true
      ∧ ((∀ k, P3.firstFree P3.stProv0.tagged 7 [false] 0 (List.range' (0 + 1) (11 - 0))
              = some k →
            0 < k ∧ k < 12
            ∧ (P3.stProv0.tagged k (P3.updIdx 7 [false] 0 k)).u = 0
            ∧ (∀ j, 0 < j → j < k → (P3.stProv0.tagged j (P3.updIdx 7 [false] 0 j)).u ≠ 0)
            ∧ (P3.update P3.stProv0 5 7 false true).map
                  (fun s => s.tagged k (P3.updIdx 7 [false] 0 k))
                = some ⟨P3.updTag 7 [false] 0 k, if false then 0 else -1, 0⟩
            ∧ ∀ i idx, i ≠ 0 → i ≠ k →
                (P3.update P3.stProv0 5 7 false true).map (fun s => s.tagged i idx)
                  = some (P3.stProv0.tagged i idx))
        ∧ (P3.firstFree P3.stProv0.tagged 7 [false] 0 (List.range' (0 + 1) (11 - 0)) = none →
            ∀ i idx, i ≠ 0 →
              (P3.update P3.stProv0 5 7 false true).map (fun s => s.tagged i idx)
                = some (P3.stProv0.tagged i idx)))) :=
  ⟨by decide,
   misprediction_allocation_policy P3.stProv0 5 7 false true P3.cpProv0 0 0 [false]
     (by decide) (by decide) (by decide) (by decide) (by decide) (by decide) (by decide)
     (by decide) (by decide) (by decide)⟩

/-- C4 (counterexample): when the base predictor was the provider
(`provider_table = -1`, no tag matched at prediction time) and the
resolution mispredicts, `update` attempts no allocation at all — contrary
to the claim's "or all tables, when the base predictor was the provider":
after the trace predict(id 16, PC 2) / history_update / update(resolved
false, predicted true), every tagged table's entry at its would-be
allocation index is still the cold `{0, 0, 0}`, although the first
usefulness-0 candidate (table 0) should have received tag
`updTag 2 [false] 0 0 ≠ 0` under the claim. -/
theorem base_provider_mispredict_no_allocation :
    (((P3.predict P3.cold 16 2).2.spec_states 16).map P3.SpeculativeState.provider_table)
        = some none
    ∧ P3.updTag 2 [false] 0 0 ≠ 0
    ∧ (∀ i, i < 12 →
        (P3.update (P3.history_update (P3.predict P3.cold 16 2).2 16 true) 16 2 false true).map
            (fun s => s.tagged i (P3.updIdx 2 [false] 0 i)) = some ⟨0, 0, 0⟩) := by
  decide

/-- C5: whenever a tagged table provides the prediction in
`src/unnamed/part_003` (the RL-ordered scan returns a provider), the
provider's (index, tag) pair matches, and the returned bit is the sign of
the provider's counter (counter ≥ 0 → taken) unless the counter's magnitude
is at most 1 and the meta-counter `use_alt_on_na` is at or above the
threshold 8, in which case the alternate's bit is returned. -/
theorem predict_weak_provider_uses_alternate :
    ∀ (st : P3.PState) (id pc p : Nat),
      (P3.providerAlt st pc).1 = some p →
      (st.tagged p (P3.predIdx st pc p)).tag = P3.predTag st pc p
      ∧ (P3.predict st id pc).1 =
          (if (st.tagged p (P3.predIdx st pc p)).ctr.natAbs ≤ 1 ∧ 8 ≤ st.use_alt_on_na
           then (P3.providerAlt st pc).2.getD (P3.basePred st pc)
           else decide (0 ≤ (st.tagged p (P3.predIdx st pc p)).ctr)) := by
  intro st id pc p h
  constructor
  · rcases scanLoop_fst_match _ st pc none p h with h1 | h1
    · exact absurd h1 (by simp)
    · exact h1
  · simp only [P3.predict, h]

/-- C5 (witness): on the cold predictor at PC 0x1000 table 0 provides
(all-zero tags match), the provider counter is weak and the meta-counter is
at threshold, so the alternate's bit is returned. -/
theorem weak_provider_witness :
    (P3.providerAlt P3.cold 4096).1 = some 0
    ∧ ((P3.cold.tagged 0 (P3.predIdx P3.cold 4096 0)).tag = P3.predTag P3.cold 4096 0
      ∧ (P3.predict P3.cold 16 4096).1 =
          (if (P3.cold.tagged 0 (P3.predIdx P3.cold 4096 0)).ctr.natAbs ≤ 1
              ∧ 8 ≤ P3.cold.use_alt_on_na
           then (P3.providerAlt P3.cold 4096).2.getD (P3.basePred P3.cold 4096)
           else decide (0 ≤ (P3.cold.tagged 0 (P3.predIdx P3.cold 4096 0)).ctr))) :=
  ⟨by decide, predict_weak_provider_uses_alternate P3.cold 16 4096 0 (by decide)⟩

set_option maxRecDepth 2048 in
/-- C6 (counterexample): on the cold predictor, `predict` for PC 0x1000
returns taken (`true`), not the claimed weakly not-taken: base counters are
initialized to 0 and `ctr >= 0` counts as taken (the source comment reads
"Initial state: weakly taken"); moreover, after an `update` with
`resolvedTaken = true` the base counter at `PC % baseSize` is unchanged,
not incremented, because a tagged table (tag 0 matches the cold tables)
was the provider. -/
theorem cold_predict_taken_not_nottaken :
    (P3.predict P3.cold 16 4096).1 = true
    ∧ P3.basePred P3.cold 4096 = true
    ∧ (P3.update (P3.history_update (P3.predict P3.cold 16 4096).2 16 true) 16 4096 true true).map
        (fun s => s.base_table (4096 % 2 ^ 14)) = some (P3.cold.base_table (4096 % 2 ^ 14)) := by
  decide

set_option maxRecDepth 2048 in
/-- C6 (amended): immediately after setup on a cold predictor, `predict`
with PC = 0x1000 (identity 16) returns taken — the cold base direction is
weakly taken (counters 0, `>= 0` → taken), and tagged table 0 in fact
provides since the all-zero tags match; after its `history_update` and an
`update` with `resolvedTaken = true`, the base counter at `PC % baseSize`
is unchanged (the provider was a tagged table), while the provider table's
counter at the recomputed update index (slot 1) is incremented by exactly
one step to 1; a second `predict` for the same PC then returns taken
again. -/
theorem cold_pc4096_scenario :
    P3.cold.base_table (4096 % 2 ^ 14) = 0
    ∧ P3.basePred P3.cold 4096 = true
    ∧ (P3.predict P3.cold 16 4096).1 = true
    ∧ (P3.providerAlt P3.cold 4096).1 = some 0
    ∧ (P3.update (P3.history_update (P3.predict P3.cold 16 4096).2 16 true) 16 4096 true true).map
        (fun s => s.base_table (4096 % 2 ^ 14)) = some 0
    ∧ (P3.update (P3.history_update (P3.predict P3.cold 16 4096).2 16 true) 16 4096 true true).map
        (fun s => s.tagged 0 1) = some ⟨0, 1, 0⟩
    ∧ (P3.update (P3.history_update (P3.predict P3.cold 16 4096).2 16 true) 16 4096 true true).map
        (fun s => (P3.predict s 32 4096).1) = some true := by
  decide

/-- C7: for every sequence of harness calls, every tagged prediction
counter stays within [-4, 3], every usefulness counter within [0, 3],
every base counter within [-2, 1], and the meta-counter within [0, 15]
(the lower bounds 0 hold by the `Nat` representation); in particular
arbitrarily many consecutive same-direction resolutions saturate at the
bound and never overflow. -/
theorem counters_stay_in_range :
    ∀ ops : List P3.Op,
      (∀ i idx, -4 ≤ ((P3.run ops).tagged i idx).ctr
        ∧ ((P3.run ops).tagged i idx).ctr ≤ 3
        ∧ ((P3.run ops).tagged i idx).u ≤ 3)
      ∧ (∀ n, -2 ≤ (P3.run ops).base_table n ∧ (P3.run ops).base_table n ≤ 1)
      ∧ (P3.run ops).use_alt_on_na ≤ 15 := by
  intro ops
  obtain ⟨h1, h2, h3⟩ := inv_foldl ops P3.cold inv_cold
  exact ⟨h1, h2, h3⟩

/-- C8 (amended: the code's bit total also includes the RL-weight tables —
`4 * 641 * 12` bits — and its bits-to-bytes conversion is `(size >> 3) +
(size & 1)`, the literal effect of `size & 7 > 0` under C++ precedence):
`setup()` fails exactly when that byte total exceeds `MAX_BYTES = 192KB`,
and the shipped `TAGGED_CONFIGS` passes. -/
theorem check_memory_budget_characterization :
    (∀ cfgs : List TableConfig, P3.check_memory_budget cfgs = true ↔
      (672 + 2 ^ 14 * 2 + 4 * 641 * 12 +
          (cfgs.map (fun cfg => 2 ^ cfg.index_bits * (cfg.tag_bits + 3 + 2))).sum) / 8
        + (672 + 2 ^ 14 * 2 + 4 * 641 * 12 +
            (cfgs.map (fun cfg => 2 ^ cfg.index_bits * (cfg.tag_bits + 3 + 2))).sum) % 2
        ≤ 192 * 1024)
    ∧ P3.setup_ok = true := by
  constructor
  · intro cfgs
    have hbits : P3.memBudgetBits cfgs =
        672 + 2 ^ 14 * 2 + 4 * 641 * 12 +
          (cfgs.map (fun cfg => 2 ^ cfg.index_bits * (cfg.tag_bits + 3 + 2))).sum :=
      foldl_add_init _ cfgs _
    simp only [P3.check_memory_budget, P3.memBudgetBytes, hbits, Nat.shiftRight_eq_div_pow,
      Nat.and_one_is_mod, decide_eq_true_eq]
  · decide

/-- C8 (counterexample): a table-bank configuration whose total per the
claim's formula (GHR + base + tagged tables, bytes rounded up) fits the
192KB budget, yet `check_memory_budget` fails on it because the code also
charges the RL-weight bits; so `setup` does not fail "exactly when" the
claim's total exceeds the budget. -/
theorem budget_formula_diverges_on_rl_weights :
    P3.specBudgetPasses P3.divergingCfgs = true
    ∧ P3.check_memory_budget P3.divergingCfgs = false := by
  decide

/-- C9: `predict` never initializes the checkpoint's `pred_cycle` member
(only `history_update` does), so for an identity with zero `history_update`
calls the subsequent `update` reads an indeterminate `uint8_t` (modelled as
`none`) and — with an empty GHR — would index `ghr[ghr.size() - delta - 1]`
out of bounds; the embedding returns `none` (undefined behaviour) on this
failing input, refuting safety and confirming the claim's intent is not met
by the code. -/
theorem predict_without_history_update_reads_uninitialized_cycle :
    (((P3.predict P3.cold 16 4096).2.spec_states 16).map P3.SpeculativeState.pred_cycle)
        = some none
    ∧ (P3.update (P3.predict P3.cold 16 4096).2 16 4096 false true).isNone = true := by
  decide

/-- C10: the rollback delta is computed on the 8-bit `pred_cycle`, i.e.
modulo 256: for a checkpoint recording the current cycle, after any list of
further `history_update` calls for other identities the delta `update`
computes equals the number of intervening pushes mod 256 — equal to the
true count exactly when fewer than 256 pushes intervened, and different
from it (wrapped) whenever 256 or more did. -/
theorem delta_is_eight_bit_push_count :
    ∀ (st : P3.PState) (id : Nat) (cp : P3.SpeculativeState) (ps : List (Nat × Bool)),
      st.spec_states id = some cp → cp.pred_cycle = some st.pred_cycle →
      st.pred_cycle < 256 → id ∉ ps.map Prod.fst →
      (P3.pushMany st ps).spec_states id = some cp
      ∧ P3.deltaCycles (P3.pushMany st ps).pred_cycle st.pred_cycle = ps.length % 256
      ∧ (ps.length < 256 →
          P3.deltaCycles (P3.pushMany st ps).pred_cycle st.pred_cycle = ps.length)
      ∧ (256 ≤ ps.length →
          P3.deltaCycles (P3.pushMany st ps).pred_cycle st.pred_cycle ≠ ps.length) := by
  intro st id cp ps h1 h2 h3 h4
  have hpc := pushMany_pred_cycle ps st h3
  refine ⟨by rw [pushMany_spec_states ps st id h4]; exact h1, ?_, ?_, ?_⟩ <;>
    rw [hpc] <;> unfold P3.deltaCycles <;> omega

set_option maxRecDepth 8192 in
/-- C10 (witness): after one recorded push, 300 further pushes by identity
32 wrap the 8-bit delta to 44 ≠ 300. -/
theorem delta_wrap_witness :
    (P3.stOnePush.spec_states 16 =
      some { provider_table := none, altpred := true, final_pred := true,
             pred_cycle := some 1, prediction := [0, 0, 0, 0, 0, 0, 0, 0, 0, 0, 0, 0] }
     ∧ P3.stOnePush.pred_cycle < 256
     ∧ 16 ∉ (List.replicate 300 (32, true)).map Prod.fst)
    ∧ (256 ≤ (List.replicate 300 ((32 : Nat), true)).length →
        P3.deltaCycles (P3.pushMany P3.stOnePush (List.replicate 300 (32, true))).pred_cycle
          P3.stOnePush.pred_cycle ≠ (List.replicate 300 ((32 : Nat), true)).length) :=
  ⟨by decide,
   (delta_is_eight_bit_push_count P3.stOnePush 16
      { provider_table := none, altpred := true, final_pred := true,
        pred_cycle := some 1, prediction := [0, 0, 0, 0, 0, 0, 0, 0, 0, 0, 0, 0] }
      (List.replicate 300 (32, true))
      (by decide) (by decide) (by decide) (by decide)).2.2.2⟩

end CBPSim
